import Mathlib

/-!
Verification development for the aphrodite-react chart-wheel core.

The numeric code of `src/components/ChartWheel.tsx` is embedded over `ℚ`
(the source's JS numbers are modelled as exact rationals, the spec's
"real inputs"), strings over Lean `String`, partial records over `Option`
fields, and JS objects used as maps over association lists / lookup
functions.  `buildIndexes` has no source file in the repository (only its
tests and callers are present), so it is modelled from the spec, as noted
on its definitions.
-/

namespace AphroditeSpec

/-! ## AngleTransform (src/components/ChartWheel.tsx, astroToSvgAngle) -/

/-- Floor fact used by the normalization loops: adding one period bumps the
floor of the scaled angle by one. -/
theorem floor_div_succ (x : ℚ) : ⌊(x + 360) / 360⌋ = ⌊x / 360⌋ + 1 := by
  have h : ((x + 360) / 360 : ℚ) = x / 360 + 1 := by ring
  rw [h]
  exact_mod_cast Int.floor_add_one (x / 360)

/-- Floor fact: subtracting one period drops the floor by one. -/
theorem floor_div_pred (x : ℚ) : ⌊(x - 360) / 360⌋ = ⌊x / 360⌋ - 1 := by
  have h : ((x - 360) / 360 : ℚ) = x / 360 - 1 := by ring
  rw [h]
  exact_mod_cast Int.floor_sub_one (x / 360)

/-- A negative angle has negative scaled floor. -/
theorem floor_div_neg (x : ℚ) (h : x < 0) : ⌊x / 360⌋ < 0 := by
  rw [Int.floor_lt]
  push_cast
  exact div_neg_of_neg_of_pos h (by norm_num)

/-- An angle at or above one period has scaled floor at least one. -/
theorem floor_div_ge_one (x : ℚ) (h : 360 ≤ x) : 1 ≤ ⌊x / 360⌋ := by
  rw [Int.le_floor]
  push_cast
  rw [le_div_iff₀ (by norm_num : (0:ℚ) < 360)]
  linarith

/-- First normalization loop of `astroToSvgAngle`:
`while (angle < 0) angle += 360;`. -/
def normUp (x : ℚ) : ℚ :=
  if h : x < 0 then normUp (x + 360) else x
termination_by (-⌊x / 360⌋).toNat
decreasing_by
  have hf := floor_div_succ x
  have hneg := floor_div_neg x h
  omega

/-- Second normalization loop of `astroToSvgAngle`:
`while (angle >= 360) angle -= 360;`. -/
def normDown (x : ℚ) : ℚ :=
  if h : 360 ≤ x then normDown (x - 360) else x
termination_by ⌊x / 360⌋.toNat
decreasing_by
  have hf := floor_div_pred x
  have hpos := floor_div_ge_one x h
  omega

/-- `astroToSvgAngle` from ChartWheel.tsx: screen angle is
`90 - (astro + rotationOffset)`, pushed into `[0, 360)` by the two loops. -/
def astroToSvgAngle (astroAngle : ℚ) (rotationOffset : ℚ) : ℚ :=
  normDown (normUp (90 - (astroAngle + rotationOffset)))

/-- The up-loop ends nonnegative and only ever adds whole periods. -/
theorem normUp_spec (x : ℚ) : 0 ≤ normUp x ∧ ∃ k : ℤ, normUp x = x + 360 * k := by
  induction x using normUp.induct with
  | case1 x h ih =>
    rw [normUp, dif_pos h]
    obtain ⟨h0, k, hk⟩ := ih
    refine ⟨h0, k + 1, ?_⟩
    rw [hk]
    push_cast
    ring
  | case2 x h =>
    rw [normUp, dif_neg h]
    exact ⟨le_of_not_lt h, 0, by ring⟩

/-- The down-loop ends below 360, preserves nonnegativity, and only ever
subtracts whole periods. -/
theorem normDown_spec (x : ℚ) :
    normDown x < 360 ∧ (0 ≤ x → 0 ≤ normDown x) ∧ ∃ k : ℤ, normDown x = x - 360 * k := by
  induction x using normDown.induct with
  | case1 x h ih =>
    rw [normDown, dif_pos h]
    obtain ⟨h1, h2, k, hk⟩ := ih
    refine ⟨h1, fun _ => h2 (by linarith), k + 1, ?_⟩
    rw [hk]
    push_cast
    ring
  | case2 x h =>
    rw [normDown, dif_neg h]
    exact ⟨lt_of_not_le h, fun h0 => h0, 0, by ring⟩

/-- `astroToSvgAngle` lands in `[0, 360)`. -/
theorem astroToSvgAngle_bounds (a r : ℚ) :
    0 ≤ astroToSvgAngle a r ∧ astroToSvgAngle a r < 360 := by
  obtain ⟨hu, _⟩ := normUp_spec (90 - (a + r))
  obtain ⟨hd1, hd2, _⟩ := normDown_spec (normUp (90 - (a + r)))
  exact ⟨hd2 hu, hd1⟩

/-- `astroToSvgAngle` differs from the raw `90 - (a + r)` by a whole number
of periods. -/
theorem astroToSvgAngle_sub_period (a r : ℚ) :
    ∃ k : ℤ, astroToSvgAngle a r = 90 - (a + r) + 360 * k := by
  obtain ⟨_, k1, hk1⟩ := normUp_spec (90 - (a + r))
  obtain ⟨_, _, k2, hk2⟩ := normDown_spec (normUp (90 - (a + r)))
  refine ⟨k1 - k2, ?_⟩
  unfold astroToSvgAngle
  rw [hk2, hk1]
  push_cast
  ring

/-- Two values of `[0, 360)` that differ by a whole number of periods are
equal. -/
theorem angle_eq_of_sub_period (u v : ℚ) (hu0 : 0 ≤ u) (hu1 : u < 360)
    (hv0 : 0 ≤ v) (hv1 : v < 360) (k : ℤ) (h : u = v + 360 * k) : u = v := by
  have hlt : ((k : ℚ)) < 1 := by nlinarith
  have hgt : (-1 : ℚ) < (k : ℚ) := by nlinarith
  have h1 : k < 1 := by exact_mod_cast hlt
  have h2 : (-1 : ℤ) < k := by exact_mod_cast hgt
  have hk : k = 0 := by omega
  rw [h, hk]
  push_cast
  ring

/-- When `90 - (a + r)` already lies in `[0, 360)` the loops are identities. -/
theorem astroToSvgAngle_of_bounds (a r : ℚ) (h0 : 0 ≤ 90 - (a + r))
    (h1 : 90 - (a + r) < 360) : astroToSvgAngle a r = 90 - (a + r) := by
  unfold astroToSvgAngle
  rw [normUp, dif_neg (not_lt.mpr h0), normDown, dif_neg (not_le.mpr h1)]

/-- Shifting the astronomical longitude by one full turn leaves the screen
angle unchanged. -/
theorem astroToSvgAngle_period (a r : ℚ) :
    astroToSvgAngle (a + 360) r = astroToSvgAngle a r := by
  obtain ⟨k1, hk1⟩ := astroToSvgAngle_sub_period (a + 360) r
  obtain ⟨k2, hk2⟩ := astroToSvgAngle_sub_period a r
  obtain ⟨hu0, hu1⟩ := astroToSvgAngle_bounds (a + 360) r
  obtain ⟨hv0, hv1⟩ := astroToSvgAngle_bounds a r
  refine angle_eq_of_sub_period _ _ hu0 hu1 hv0 hv1 (k1 - 1 - k2) ?_
  rw [hk1, hk2]
  push_cast
  ring

/-! ## ArcGeometry (sign branch of ChartWheel.tsx)

The source converts the two screen angles to radians
(`startRad = startAngle * π/180`, `endRad = endAngle * π/180`), compares
`endRad < startRad` and on wraparound adds `2π` to `endRad` before handing
both to the arc constructor.  Multiplication by the positive constant
`π/180` preserves the order and carries `360` degrees to `2π`, so the
degree-valued embedding below is the exact image of the radian code. -/

/-- Start and (wraparound-corrected) end angle of a sign segment, in
degrees, as computed by the `item.kind === 'sign'` branch. -/
def signArcAngles (startLon endLon rot : ℚ) : ℚ × ℚ :=
  let startAngle := astroToSvgAngle startLon rot
  let endAngle := astroToSvgAngle endLon rot
  if endAngle < startAngle then (startAngle, endAngle + 360) else (startAngle, endAngle)

/-- Label/glyph anchor angle of a sign segment: the source converts the
astronomical-longitude midpoint, `astroToSvgAngle((startLon + endLon) / 2, rot)`. -/
def signLabelAnchorAngle (startLon endLon rot : ℚ) : ℚ :=
  astroToSvgAngle ((startLon + endLon) / 2) rot

/-- Claim C1: for the Aries segment (startLon 0, endLon 30) at rotation
offset 0, the wraparound branch does fire (`astroToSvgAngle 30 0 = 60 <
90 = astroToSvgAngle 0 0`) and does add exactly 360° to the end angle —
but the corrected end angle minus the start angle is 330°, not ≈30°: the
arc spans 330° and is drawn the long way around, contradicting the claim
and the source's own comment ("For a 30° sign, we want the short arc"). -/
theorem claim_C1_arc_span :
    astroToSvgAngle 30 0 < astroToSvgAngle 0 0 ∧
    (signArcAngles 0 30 0).2 = astroToSvgAngle 30 0 + 360 ∧
    (signArcAngles 0 30 0).2 - (signArcAngles 0 30 0).1 = 330 := by
  have h30 : astroToSvgAngle 30 0 = 60 := by
    rw [astroToSvgAngle_of_bounds 30 0 (by norm_num) (by norm_num)]
    norm_num
  have h0 : astroToSvgAngle 0 0 = 90 := by
    rw [astroToSvgAngle_of_bounds 0 0 (by norm_num) (by norm_num)]
    norm_num
  have hlt : astroToSvgAngle 30 0 < astroToSvgAngle 0 0 := by
    rw [h30, h0]
    norm_num
  refine ⟨hlt, ?_, ?_⟩ <;>
    simp only [signArcAngles, if_pos hlt, h30, h0] <;> norm_num

/-- Claim C6: `astroToSvgAngle` is periodic with period 360, always lands
in `[0, 360)`, and is computed as `90 - (a + r)` normalized by the two
repeated-addition/subtraction loops. -/
theorem claim_C6_astroToSvgAngle (a r : ℚ) :
    astroToSvgAngle (a + 360) r = astroToSvgAngle a r ∧
    0 ≤ astroToSvgAngle a r ∧ astroToSvgAngle a r < 360 ∧
    astroToSvgAngle a r = normDown (normUp (90 - (a + r))) :=
  ⟨astroToSvgAngle_period a r, (astroToSvgAngle_bounds a r).1,
    (astroToSvgAngle_bounds a r).2, rfl⟩

/-- Claim C7: the sign label anchor is the astronomical-longitude midpoint
converted by `astroToSvgAngle` (never an average of the two screen
angles), and for the Aries segment at rotation offset 0 it equals
`astroToSvgAngle 15 0 = 75`; on a seam-crossing segment (345°→15°) the
anchor differs from the screen-angle average, which the midpoint-first
formula avoids. -/
theorem claim_C7_sign_anchor :
    (∀ s e rot : ℚ, signLabelAnchorAngle s e rot = astroToSvgAngle ((s + e) / 2) rot) ∧
    signLabelAnchorAngle 0 30 0 = astroToSvgAngle 15 0 ∧
    astroToSvgAngle 15 0 = 75 ∧
    signLabelAnchorAngle 345 15 0 ≠
      (astroToSvgAngle 345 0 + astroToSvgAngle 15 0) / 2 := by
  have h15 : astroToSvgAngle 15 0 = 75 := by
    rw [astroToSvgAngle_of_bounds 15 0 (by norm_num) (by norm_num)]
    norm_num
  have h345 : astroToSvgAngle 345 0 = 105 := by
    have : astroToSvgAngle 345 0 = normDown (normUp (-255)) := by
      unfold astroToSvgAngle
      norm_num
    rw [this, normUp, dif_pos (by norm_num : (-255 : ℚ) < 0)]
    rw [normUp, dif_neg (by norm_num : ¬((-255 : ℚ) + 360 < 0))]
    rw [normDown, dif_neg (by norm_num : ¬((360 : ℚ) ≤ -255 + 360))]
    norm_num
  have h180 : astroToSvgAngle ((345 + 15) / 2) 0 = 270 := by
    have : astroToSvgAngle ((345 + 15) / 2) 0 = normDown (normUp (-90)) := by
      unfold astroToSvgAngle
      norm_num
    rw [this, normUp, dif_pos (by norm_num : (-90 : ℚ) < 0)]
    rw [normUp, dif_neg (by norm_num : ¬((-90 : ℚ) + 360 < 0))]
    rw [normDown, dif_neg (by norm_num : ¬((360 : ℚ) ≤ -90 + 360))]
    norm_num
  have hmid : signLabelAnchorAngle 0 30 0 = astroToSvgAngle 15 0 := by
    unfold signLabelAnchorAngle
    norm_num
  refine ⟨fun s e rot => rfl, hmid, h15, ?_⟩
  unfold signLabelAnchorAngle
  rw [h180, h345, h15]
  norm_num

/-! ## Object and sign lookups (getObjectInfo / getSignIndex)

Identifiers are ASCII strings; JS `String.prototype.toLowerCase` on them
is the ASCII lowercase map, embedded character-wise below. -/

/-- ASCII lowercase of one character (`'A'..'Z'` shift by 32, all else
unchanged), the action of JS `toLowerCase` on the identifiers in play. -/
def lcChar (c : Char) : Char :=
  if 65 ≤ c.toNat ∧ c.toNat ≤ 90 then Char.ofNat (c.toNat + 32) else c

/-- JS `toLowerCase` on an identifier string. -/
def jsToLower (s : String) : String :=
  ⟨s.data.map lcChar⟩

/-- Lowercasing a character twice is the same as lowercasing it once. -/
theorem lcChar_idem (c : Char) : lcChar (lcChar c) = lcChar c := by
  unfold lcChar
  by_cases h : 65 ≤ c.toNat ∧ c.toNat ≤ 90
  · rw [if_pos h, if_neg ?_]
    obtain ⟨h1, h2⟩ := h
    set n := c.toNat with hn
    interval_cases n <;> decide
  · rw [if_neg h, if_neg h]

/-- Lowercasing a string twice is the same as lowercasing it once. -/
theorem jsToLower_idem (s : String) : jsToLower (jsToLower s) = jsToLower s := by
  unfold jsToLower
  simp [List.map_map, Function.comp_def, lcChar_idem]

/-- The `signMap` object-literal lookup inside `getSignIndex`. -/
def signMapLookup (s : String) : Option Nat :=
  if s = "aries" then some 0
  else if s = "taurus" then some 1
  else if s = "gemini" then some 2
  else if s = "cancer" then some 3
  else if s = "leo" then some 4
  else if s = "virgo" then some 5
  else if s = "libra" then some 6
  else if s = "scorpio" then some 7
  else if s = "sagittarius" then some 8
  else if s = "capricorn" then some 9
  else if s = "aquarius" then some 10
  else if s = "pisces" then some 11
  else none

/-- `getSignIndex` from ChartWheel.tsx: `signMap[signName.toLowerCase()] ?? null`. -/
def getSignIndex (signName : String) : Option Nat :=
  signMapLookup (jsToLower signName)

/-- Result record of `getObjectInfo`. -/
structure ObjectInfo where
  index : Option Nat
  label : String
  glyph : Option String
deriving DecidableEq

/-- The `planetMap` object-literal lookup inside `getObjectInfo`. -/
def planetLookup (s : String) : Option (Nat × String × String) :=
  if s = "sun" then some (0, "Sun", "☉")
  else if s = "moon" then some (1, "Moon", "☽")
  else if s = "mercury" then some (2, "Mercury", "☿")
  else if s = "venus" then some (3, "Venus", "♀")
  else if s = "mars" then some (4, "Mars", "♂")
  else if s = "jupiter" then some (5, "Jupiter", "♃")
  else if s = "saturn" then some (6, "Saturn", "♄")
  else if s = "uranus" then some (7, "Uranus", "♅")
  else if s = "neptune" then some (8, "Neptune", "♆")
  else if s = "pluto" then some (9, "Pluto", "♇")
  else none

/-- The `specialObjects` object-literal lookup inside `getObjectInfo`. -/
def specialLookup (s : String) : Option (String × String) :=
  if s = "chiron" then some ("Chiron", "⚷")
  else if s = "north_node" then some ("North Node", "☊")
  else if s = "south_node" then some ("South Node", "☋")
  else if s = "asc" then some ("Asc", "Asc")
  else if s = "mc" then some ("MC", "MC")
  else if s = "ic" then some ("IC", "IC")
  else if s = "dc" then some ("DC", "DC")
  else none

/-- `getObjectInfo` from ChartWheel.tsx: planets carry an index and glyph,
special objects a glyph only, anything else falls back to the raw id as
label with no index and no glyph. -/
def getObjectInfo (objectId : String) : ObjectInfo :=
  match planetLookup (jsToLower objectId) with
  | some (i, lab, g) => ⟨some i, lab, some g⟩
  | none =>
    match specialLookup (jsToLower objectId) with
    | some (lab, g) => ⟨none, lab, some g⟩
    | none => ⟨none, objectId, none⟩

/-- Claim C10: `getSignIndex` and the index/glyph components of
`getObjectInfo` are insensitive to the casing of the identifier, the
fallback label of an unrecognized identifier is the identifier itself
(original casing), and unknown sign names map to `none`, not a numeric
sentinel. -/
theorem claim_C10_case_insensitive :
    (∀ s : String,
      getSignIndex s = getSignIndex (jsToLower s) ∧
      (getObjectInfo s).index = (getObjectInfo (jsToLower s)).index ∧
      (getObjectInfo s).glyph = (getObjectInfo (jsToLower s)).glyph ∧
      ((getObjectInfo s).glyph = none → (getObjectInfo s).label = s)) ∧
    getSignIndex "ophiuchus" = none := by
  constructor
  · intro s
    have hlow : jsToLower (jsToLower s) = jsToLower s := jsToLower_idem s
    refine ⟨?_, ?_, ?_, ?_⟩
    · unfold getSignIndex
      rw [hlow]
    · unfold getObjectInfo
      rw [hlow]
      rcases planetLookup (jsToLower s) with _ | ⟨i, lab, g⟩
      · rcases specialLookup (jsToLower s) with _ | ⟨lab, g⟩ <;> rfl
      · rfl
    · unfold getObjectInfo
      rw [hlow]
      rcases planetLookup (jsToLower s) with _ | ⟨i, lab, g⟩
      · rcases specialLookup (jsToLower s) with _ | ⟨lab, g⟩ <;> rfl
      · rfl
    · unfold getObjectInfo
      rcases planetLookup (jsToLower s) with _ | ⟨i, lab, g⟩
      · rcases specialLookup (jsToLower s) with _ | ⟨lab, g⟩
        · intro _
          rfl
        · intro hc
          exact absurd hc (by simp)
      · intro hc
        exact absurd hc (by simp)
  · decide

/-- Witness for claim C10 at the concrete unrecognized identifier
"Ceres": its fallback label preserves the original casing. -/
theorem claim_C10_witness : (getObjectInfo "Ceres").label = "Ceres" :=
  ((claim_C10_case_insensitive.1 "Ceres").2.2.2) (by decide)

/-! ## ConfigMerger (themes, defaults, mergeVisualConfig)

A partial `VisualConfig` has `Option` fields (absent = the property is not
on the JS object); aspect-color record literals are embedded as lookup
functions `String → Option String`.  `Required<VisualConfig>` is the
`FullVisualConfig` structure. -/

/-- Partial visual configuration (all fields optional, as in the TS type). -/
structure VisualConfig where
  signColors : Option (List String) := none
  houseColors : Option (List String) := none
  planetColors : Option (List String) := none
  aspectColors : Option (String → Option String) := none
  backgroundColor : Option String := none
  strokeColor : Option String := none
  strokeWidth : Option ℚ := none
  aspectStrokeWidth : Option ℚ := none
  ringWidth : Option ℚ := none
  ringSpacing : Option ℚ := none

/-- Fully-populated visual configuration (`Required<VisualConfig>`). -/
structure FullVisualConfig where
  signColors : List String
  houseColors : List String
  planetColors : List String
  aspectColors : String → Option String
  backgroundColor : String
  strokeColor : String
  strokeWidth : ℚ
  aspectStrokeWidth : ℚ
  ringWidth : ℚ
  ringSpacing : ℚ

/-- Theme selector. -/
inductive Theme where
  | traditional
  | modern
deriving DecidableEq

/-- Sign colors of the dark traditional theme. -/
def tradSignColors : List String :=
  ["#C0392B", "#D68910", "#F39C12", "#85C1E2", "#F7DC6F", "#82E0AA",
   "#F8C471", "#8B4513", "#F1C40F", "#5D6D7E", "#3498DB", "#9B59B6"]

/-- House colors of the dark traditional theme. -/
def tradHouseColors : List String :=
  ["#3A3A3A", "#404040", "#454545", "#4A4A4A", "#505050", "#555555",
   "#3A3A3A", "#404040", "#454545", "#4A4A4A", "#505050", "#555555"]

/-- Planet colors of the dark traditional theme. -/
def tradPlanetColors : List String :=
  ["#F39C12", "#F7DC6F", "#D68910", "#F8C471", "#C0392B", "#F1C40F",
   "#5D6D7E", "#85C1E2", "#3498DB", "#8B4513"]

/-- Aspect-color record of the dark traditional theme. -/
def tradAspectColors (k : String) : Option String :=
  if k = "conjunction" then some "#C0392B"
  else if k = "opposition" then some "#3498DB"
  else if k = "trine" then some "#27AE60"
  else if k = "square" then some "#E74C3C"
  else if k = "sextile" then some "#F39C12"
  else if k = "semisextile" then some "#D68910"
  else if k = "semisquare" then some "#E67E22"
  else if k = "sesquiquadrate" then some "#E67E22"
  else if k = "quincunx" then some "#8B4513"
  else none

/-- Sign colors of the dark modern theme. -/
def modernSignColors : List String :=
  ["#E63946", "#F77F00", "#FCBF49", "#06A77D", "#D62828", "#A8DADC",
   "#A8DADC", "#457B9D", "#1D3557", "#2A2D34", "#4A90E2", "#E91E63"]

/-- House colors of the dark modern theme. -/
def modernHouseColors : List String :=
  ["#2A2A2A", "#333333", "#3A3A3A", "#404040", "#474747", "#4D4D4D",
   "#2A2A2A", "#333333", "#3A3A3A", "#404040", "#474747", "#4D4D4D"]

/-- Planet colors of the dark modern theme. -/
def modernPlanetColors : List String :=
  ["#FFB800", "#E0E0E0", "#FF6B6B", "#4ECDC4", "#FF4757", "#FFA502",
   "#5F27CD", "#00D2D3", "#3742FA", "#2F3542"]

/-- Aspect-color record of the dark modern theme. -/
def modernAspectColors (k : String) : Option String :=
  if k = "conjunction" then some "#FF4757"
  else if k = "opposition" then some "#4A90E2"
  else if k = "trine" then some "#06A77D"
  else if k = "square" then some "#E63946"
  else if k = "sextile" then some "#FCBF49"
  else if k = "semisextile" then some "#F77F00"
  else if k = "semisquare" then some "#FF6B6B"
  else if k = "sesquiquadrate" then some "#FF6B6B"
  else if k = "quincunx" then some "#5F27CD"
  else none

/-- `darkTraditionalTheme` from ChartWheel.tsx. -/
def darkTraditionalTheme : VisualConfig :=
  { signColors := some tradSignColors
    houseColors := some tradHouseColors
    planetColors := some tradPlanetColors
    aspectColors := some tradAspectColors
    backgroundColor := some "#1a1a1a"
    strokeColor := some "#d4af37"
    strokeWidth := some 1
    aspectStrokeWidth := some 2 }

/-- `darkModernTheme` from ChartWheel.tsx. -/
def darkModernTheme : VisualConfig :=
  { signColors := some modernSignColors
    houseColors := some modernHouseColors
    planetColors := some modernPlanetColors
    aspectColors := some modernAspectColors
    backgroundColor := some "#0f0f0f"
    strokeColor := some "#e0e0e0"
    strokeWidth := some 1
    aspectStrokeWidth := some 2 }

/-- `getDarkModeTheme` from ChartWheel.tsx. -/
def getDarkModeTheme (t : Theme) : VisualConfig :=
  match t with
  | .traditional => darkTraditionalTheme
  | .modern => darkModernTheme

/-- `defaultVisualConfig` from ChartWheel.tsx: ring metrics plus the spread
of `getDarkModeTheme('traditional')` (all of whose fields are present). -/
def defaultVisualConfig : FullVisualConfig :=
  { ringWidth := 30
    ringSpacing := 10
    signColors := tradSignColors
    houseColors := tradHouseColors
    planetColors := tradPlanetColors
    aspectColors := tradAspectColors
    backgroundColor := "#1a1a1a"
    strokeColor := "#d4af37"
    strokeWidth := 1
    aspectStrokeWidth := 2 }

/-- `mergeVisualConfig` from ChartWheel.tsx.  With an explicit config the
theme is never consulted: defaults are spread, then the config, then the
three color arrays fall back to the default wholesale and the aspect-color
record merges key-by-key over the default's.  With only a theme the same
shape is built from the theme over the default, re-pinning ring metrics to
the default's.  Otherwise the default is returned. -/
def mergeVisualConfig (config : Option VisualConfig) (theme : Option Theme) :
    FullVisualConfig :=
  match config with
  | some cfg =>
    { ringWidth := cfg.ringWidth.getD defaultVisualConfig.ringWidth
      ringSpacing := cfg.ringSpacing.getD defaultVisualConfig.ringSpacing
      backgroundColor := cfg.backgroundColor.getD defaultVisualConfig.backgroundColor
      strokeColor := cfg.strokeColor.getD defaultVisualConfig.strokeColor
      strokeWidth := cfg.strokeWidth.getD defaultVisualConfig.strokeWidth
      aspectStrokeWidth := cfg.aspectStrokeWidth.getD defaultVisualConfig.aspectStrokeWidth
      signColors := cfg.signColors.getD defaultVisualConfig.signColors
      houseColors := cfg.houseColors.getD defaultVisualConfig.houseColors
      planetColors := cfg.planetColors.getD defaultVisualConfig.planetColors
      aspectColors := fun k =>
        ((cfg.aspectColors.getD (fun _ => none)) k).or (defaultVisualConfig.aspectColors k) }
  | none =>
    match theme with
    | some t =>
      let tc := getDarkModeTheme t
      { ringWidth := defaultVisualConfig.ringWidth
        ringSpacing := defaultVisualConfig.ringSpacing
        backgroundColor := tc.backgroundColor.getD defaultVisualConfig.backgroundColor
        strokeColor := tc.strokeColor.getD defaultVisualConfig.strokeColor
        strokeWidth := tc.strokeWidth.getD defaultVisualConfig.strokeWidth
        aspectStrokeWidth := tc.aspectStrokeWidth.getD defaultVisualConfig.aspectStrokeWidth
        signColors := tc.signColors.getD defaultVisualConfig.signColors
        houseColors := tc.houseColors.getD defaultVisualConfig.houseColors
        planetColors := tc.planetColors.getD defaultVisualConfig.planetColors
        aspectColors := fun k =>
          ((tc.aspectColors.getD (fun _ => none)) k).or (defaultVisualConfig.aspectColors k) }
    | none => defaultVisualConfig

/-- The caller config `{aspectColors: {trine: '#000000'}}` of claim C2. -/
def cfgTrineBlack : VisualConfig :=
  { aspectColors := some (fun k => if k = "trine" then some "#000000" else none) }

/-- Counterexample to claim C2 as stated: with the modern theme, the merged
"opposition" color is the built-in default's `#3498DB`, not the theme's
`#4A90E2` — an explicit config makes `mergeVisualConfig` ignore the theme
entirely. -/
theorem claim_C2_counterexample :
    (mergeVisualConfig (some cfgTrineBlack) (some Theme.modern)).aspectColors "opposition" ≠
      (darkModernTheme.aspectColors.getD (fun _ => none)) "opposition" := by
  decide

/-- Claim C2 (amended): for every theme, merging
`{aspectColors: {trine: '#000000'}}` binds "trine" to `#000000` and every
other aspect key to the built-in default's color (the theme is ignored
when an explicit config is present). -/
theorem claim_C2_aspect_merge (t : Theme) (k : String) :
    (mergeVisualConfig (some cfgTrineBlack) (some t)).aspectColors k =
      if k = "trine" then some "#000000" else defaultVisualConfig.aspectColors k := by
  by_cases h : k = "trine"
  · simp [mergeVisualConfig, cfgTrineBlack, h, Option.or]
  · simp [mergeVisualConfig, cfgTrineBlack, h, Option.or]

/-- Counterexample to claim C9 as stated: the caller config supplies no
`signColors` and the modern theme does, so under the claimed
explicit > theme > default precedence the merged array would be the modern
theme's; the code instead returns the built-in default's array. -/
theorem claim_C9_counterexample :
    (mergeVisualConfig (some cfgTrineBlack) (some Theme.modern)).signColors ≠
      modernSignColors := by
  decide

/-- Claim C9 (amended): each indexed color array is taken wholesale, with
no element-wise merging — from the explicit config if it supplies it, else
the built-in default, the theme being ignored whenever an explicit config
is present; only when no explicit config is given does the theme's array
(else the default's) apply. -/
theorem claim_C9_array_precedence (cfg : VisualConfig) (t : Theme) :
    ((mergeVisualConfig (some cfg) (some t)).signColors =
        cfg.signColors.getD defaultVisualConfig.signColors ∧
      (mergeVisualConfig (some cfg) (some t)).houseColors =
        cfg.houseColors.getD defaultVisualConfig.houseColors ∧
      (mergeVisualConfig (some cfg) (some t)).planetColors =
        cfg.planetColors.getD defaultVisualConfig.planetColors) ∧
    ((mergeVisualConfig none (some t)).signColors =
        (getDarkModeTheme t).signColors.getD defaultVisualConfig.signColors ∧
      (mergeVisualConfig none (some t)).houseColors =
        (getDarkModeTheme t).houseColors.getD defaultVisualConfig.houseColors ∧
      (mergeVisualConfig none (some t)).planetColors =
        (getDarkModeTheme t).planetColors.getD defaultVisualConfig.planetColors) ∧
    ((mergeVisualConfig none none).signColors = defaultVisualConfig.signColors ∧
      (mergeVisualConfig none none).houseColors = defaultVisualConfig.houseColors ∧
      (mergeVisualConfig none none).planetColors = defaultVisualConfig.planetColors) :=
  ⟨⟨rfl, rfl, rfl⟩, ⟨rfl, rfl, rfl⟩, ⟨rfl, rfl, rfl⟩⟩

/-! ## Layout Driver, planet branch (ChartWheel.tsx lines 477-543)

The draw descriptor below captures the decisions the planet branch makes
per item: the fill color, whether a glyph text or a fallback circle marker
is drawn, and the label text. -/

/-- Fully-populated glyph configuration (`Required<GlyphConfig>`); the
number-keyed glyph records are embedded as lookup functions. -/
structure FullGlyphConfig where
  signGlyphs : Nat → Option String
  planetGlyphs : Nat → Option String
  aspectGlyphs : String → Option String
  glyphSize : ℚ
  glyphFont : String

/-- `defaultGlyphConfig` from ChartWheel.tsx. -/
def defaultGlyphConfig : FullGlyphConfig :=
  { signGlyphs := fun i =>
      if i = 0 then some "♈" else if i = 1 then some "♉"
      else if i = 2 then some "♊" else if i = 3 then some "♋"
      else if i = 4 then some "♌" else if i = 5 then some "♍"
      else if i = 6 then some "♎" else if i = 7 then some "♏"
      else if i = 8 then some "♐" else if i = 9 then some "♑"
      else if i = 10 then some "♒" else if i = 11 then some "♓"
      else none
    planetGlyphs := fun i =>
      if i = 0 then some "☉" else if i = 1 then some "☽"
      else if i = 2 then some "☿" else if i = 3 then some "♀"
      else if i = 4 then some "♂" else if i = 5 then some "♃"
      else if i = 6 then some "♄" else if i = 7 then some "♅"
      else if i = 8 then some "♆" else if i = 9 then some "♇"
      else none
    aspectGlyphs := fun _ => none
    glyphSize := 12
    glyphFont := "Arial" }

/-- JS truthiness of an optional string: present and non-empty. -/
def strTruthy (o : Option String) : Bool :=
  match o with
  | some s => s ≠ ""
  | none => false

/-- JS `a || b` on strings: the left side unless it is empty. -/
def jsOrStr (a b : String) : String :=
  if a = "" then b else a

/-- The marker the planet branch draws at the item position: a glyph text,
or the fallback circle. -/
inductive PlanetMark where
  | glyphText (g : String)
  | circle
deriving DecidableEq

/-- Per-planet draw descriptor. -/
structure PlanetDraw where
  color : String
  mark : PlanetMark
  label : String
deriving DecidableEq

/-- The `item.kind === 'planet'` branch of ChartWheel.tsx: resolve the
object info, pick the indexed planet color when the index and that color
exist (else the stroke color, else `#333`), draw the configured glyph for
an indexed planet, else the object-info glyph, else a circle, and label
with the object-info label. -/
def renderPlanet (cfg : FullVisualConfig) (g : FullGlyphConfig)
    (planetId : String) : PlanetDraw :=
  let info := getObjectInfo planetId
  let planetColor :=
    match info.index with
    | some i =>
      if strTruthy (cfg.planetColors.get? i) then (cfg.planetColors.get? i).getD ""
      else jsOrStr cfg.strokeColor "#333"
    | none => jsOrStr cfg.strokeColor "#333"
  let fromInfoGlyph : PlanetMark :=
    match info.glyph with
    | some og => if og = "" then .circle else .glyphText og
    | none => .circle
  let mark :=
    match info.index with
    | some i =>
      if strTruthy (g.planetGlyphs i) then PlanetMark.glyphText ((g.planetGlyphs i).getD "")
      else fromInfoGlyph
    | none => fromInfoGlyph
  { color := planetColor, mark := mark, label := info.label }

/-- An object identifier the lookups of `getObjectInfo` recognize. -/
def recognizedObject (s : String) : Bool :=
  (planetLookup (jsToLower s)).isSome || (specialLookup (jsToLower s)).isSome

/-- Claim C5: an unrecognized object identifier yields the explicit
not-found info (no index, no glyph, the identifier itself as label), and
the planet branch then renders a plain stroke-colored circle marker with
that label — no glyph and no indexed planet color — instead of failing. -/
theorem claim_C5_unrecognized_fallback (cfg : FullVisualConfig)
    (g : FullGlyphConfig) (s : String) (h : recognizedObject s = false) :
    getObjectInfo s = ⟨none, s, none⟩ ∧
    renderPlanet cfg g s =
      { color := jsOrStr cfg.strokeColor "#333", mark := .circle, label := s } := by
  unfold recognizedObject at h
  rw [Bool.or_eq_false_iff] at h
  obtain ⟨hp, hs⟩ := h
  have hp2 : planetLookup (jsToLower s) = none := by
    cases hq : planetLookup (jsToLower s) with
    | none => rfl
    | some v => rw [hq] at hp; simp at hp
  have hs2 : specialLookup (jsToLower s) = none := by
    cases hq : specialLookup (jsToLower s) with
    | none => rfl
    | some v => rw [hq] at hs; simp at hs
  have hinfo : getObjectInfo s = ⟨none, s, none⟩ := by
    unfold getObjectInfo
    rw [hp2, hs2]
  refine ⟨hinfo, ?_⟩
  unfold renderPlanet
  rw [hinfo]

/-- Witness for claim C5 at the unrecognized identifier "Ceres" under the
default configurations. -/
theorem claim_C5_witness :
    recognizedObject "Ceres" = false ∧
    getObjectInfo "Ceres" = ⟨none, "Ceres", none⟩ ∧
    renderPlanet defaultVisualConfig defaultGlyphConfig "Ceres" =
      { color := jsOrStr defaultVisualConfig.strokeColor "#333",
        mark := .circle, label := "Ceres" } :=
  ⟨by decide,
    claim_C5_unrecognized_fallback defaultVisualConfig defaultGlyphConfig "Ceres" (by decide)⟩

/-! ## IndexBuilder (buildIndexes)

The repository ships only the tests (`src/utils/__tests__/buildIndexes.test.ts`)
and callers of `buildIndexes`, not its source, so the builder is modelled
from the spec (§4.1).  JS objects used as growing maps are embedded as
association lists with first-match lookup and in-place overwrite. -/

/-- First-match lookup in an association list (JS `obj[k]`). -/
def alookup {α : Type} (m : List (String × α)) (k : String) : Option α :=
  match m with
  | [] => none
  | (k', v) :: rest => if k' = k then some v else alookup rest k

/-- Overwrite-or-append assignment in an association list (JS `obj[k] = v`). -/
def aset {α : Type} (m : List (String × α)) (k : String) (v : α) :
    List (String × α) :=
  match m with
  | [] => [(k, v)]
  | (k', v') :: rest => if k' = k then (k, v) :: rest else (k', v') :: aset rest k v

/-- Append one element to the list stored under a key, creating the entry
when absent (JS `(obj[k] ??= []).push(v)`). -/
def aappend {α : Type} (m : List (String × List α)) (k : String) (v : α) :
    List (String × List α) :=
  aset m k (((alookup m k).getD []) ++ [v])

/-- Inner/outer radius range. -/
structure RadiusRange where
  inner : ℚ
  outer : ℚ
deriving DecidableEq

/-- Tagged ring item variants (`sign`, `houseCusp`, `planet`, open to other
kinds), with the kind-specific fields of the DTOs. -/
inductive RingItem where
  | planet (itemId layerId planetId : String) (lon lat speedLon : ℚ)
      (retrograde : Bool) (signIndex houseIndex : Nat)
  | houseCusp (itemId : String) (houseIndex : Nat) (lon : ℚ)
  | sign (itemId : String) (index : Option Nat) (label : Option String)
      (startLon endLon : ℚ)
  | other (itemId kind : String)
deriving DecidableEq

/-- The item's own id, the key of `itemByRingAndId[ring.id]`. -/
def RingItem.key : RingItem → String
  | .planet i _ _ _ _ _ _ _ _ => i
  | .houseCusp i _ _ => i
  | .sign i _ _ _ _ => i
  | .other i _ => i

/-- One ring of the wheel; `items` is `none` when never supplied. -/
structure Ring where
  id : String
  type : String
  label : Option String
  order : Nat
  radius : RadiusRange
  items : Option (List RingItem)
deriving DecidableEq

/-- The wheel; `rings = none` models a `null`/non-iterable rings value. -/
structure Wheel where
  id : String
  name : String
  radius : RadiusRange
  rings : Option (List Ring)
deriving DecidableEq

/-- An aspect endpoint: layer, object type, object id. -/
structure ObjectRef where
  layerId : String
  objectType : String
  objectId : String
deriving DecidableEq

/-- The LogicalId of an aspect endpoint, `layerId:objectType:objectId`. -/
def logicalId (o : ObjectRef) : String :=
  o.layerId ++ ":" ++ o.objectType ++ ":" ++ o.objectId

/-- Aspect descriptor carried by a pair. -/
structure AspectInfo where
  type : String
  exactAngle : ℚ
  orb : ℚ
  isApplying : Bool
  isExact : Bool
deriving DecidableEq

/-- One recorded aspect between two object endpoints.  `src`/`dst` stand
for the source's `from`/`to` fields. -/
structure AspectPair where
  id : String
  src : ObjectRef
  dst : ObjectRef
  aspect : AspectInfo
deriving DecidableEq

/-- A group of aspect pairs. -/
structure AspectSet where
  id : String
  label : Option String
  kind : String
  layerIds : List String
  pairs : List AspectPair
deriving DecidableEq

/-- The parts of a chart snapshot `buildIndexes` reads: the wheel and the
aspect sets (the sets of the `aspects.sets` record, in insertion order). -/
structure RenderResponse where
  wheel : Wheel
  aspectSets : List AspectSet
deriving DecidableEq

/-- The Indexes read-model. -/
structure Indexes where
  ringById : List (String × Ring)
  itemByRingAndId : List (String × List (String × RingItem))
  aspectSetById : List (String × AspectSet)
  aspectById : List (String × AspectPair)
  itemsByLogicalId : List (String × List (String × String))
  aspectsByObjectLogicalId : List (String × List String)
deriving DecidableEq

/-- Empty Indexes accumulator. -/
def emptyIndexes : Indexes :=
  ⟨[], [], [], [], [], []⟩

/-- Modelled from the spec: the LogicalId a ring item contributes to
`itemsByLogicalId` — planets use `layerId:planet:planetId`; the spec
leaves the scheme for other kinds open (§9, open question), so only
planet items contribute. -/
def itemLogicalId : RingItem → Option String
  | .planet _ layerId planetId _ _ _ _ _ _ => some (layerId ++ ":planet:" ++ planetId)
  | _ => none

/-- Modelled from the spec (§4.1): register one item under
`itemByRingAndId[ringId]` and, when it has a LogicalId, append the
`(ringId, itemId)` reference to `itemsByLogicalId`. -/
def processItem (idx : Indexes) (ringId : String) (item : RingItem) : Indexes :=
  let inner := (alookup idx.itemByRingAndId ringId).getD []
  let m1 := aset idx.itemByRingAndId ringId (aset inner item.key item)
  let idx1 := { idx with itemByRingAndId := m1 }
  match itemLogicalId item with
  | some lid =>
    let m2 := aappend idx1.itemsByLogicalId lid (ringId, item.key)
    { idx1 with itemsByLogicalId := m2 }
  | none => idx1

/-- Modelled from the spec (§4.1): register the ring under `ringById`;
when `items` is absent create no `itemByRingAndId` entry, when present
(possibly empty) create the entry and fill it item by item. -/
def processRing (idx : Indexes) (ring : Ring) : Indexes :=
  let idx1 := { idx with ringById := aset idx.ringById ring.id ring }
  match ring.items with
  | none => idx1
  | some items =>
    let m1 := aset idx1.itemByRingAndId ring.id []
    let idx2 := { idx1 with itemByRingAndId := m1 }
    items.foldl (fun acc item => processItem acc ring.id item) idx2

/-- Modelled from the spec (§4.1): register one aspect pair under
`aspectById` and append its id to `aspectsByObjectLogicalId` under both
endpoint LogicalIds (once only when the two coincide). -/
def processPair (idx : Indexes) (pair : AspectPair) : Indexes :=
  let idx1 := { idx with aspectById := aset idx.aspectById pair.id pair }
  let lidFrom := logicalId pair.src
  let lidTo := logicalId pair.dst
  let m1 := aappend idx1.aspectsByObjectLogicalId lidFrom pair.id
  let idx2 := { idx1 with aspectsByObjectLogicalId := m1 }
  if lidTo = lidFrom then idx2
  else
    let m2 := aappend idx2.aspectsByObjectLogicalId lidTo pair.id
    { idx2 with aspectsByObjectLogicalId := m2 }

/-- Modelled from the spec (§4.1): register one aspect set and process its
pairs in order. -/
def processSet (idx : Indexes) (s : AspectSet) : Indexes :=
  let idx1 := { idx with aspectSetById := aset idx.aspectSetById s.id s }
  s.pairs.foldl processPair idx1

/-- Modelled from the spec: `buildIndexes` fails with a
structural-validation error when `wheel.rings` is not a valid ordered
sequence, and otherwise folds the rings then the aspect sets into the
Indexes (§4.1, §7). -/
def buildIndexes (r : RenderResponse) : Except String Indexes :=
  match r.wheel.rings with
  | none => .error "wheel.rings is not a valid ordered sequence"
  | some rings =>
    let idx := rings.foldl processRing emptyIndexes
    .ok (r.aspectSets.foldl processSet idx)

/-- Lookup after assignment: the assigned key reads back the new value,
all other keys are untouched. -/
theorem alookup_aset {α : Type} (m : List (String × α)) (k : String) (v : α)
    (q : String) : alookup (aset m k v) q = if k = q then some v else alookup m q := by
  induction m with
  | nil =>
    by_cases h : k = q <;> simp [aset, alookup, h]
  | cons hd tl ih =>
    obtain ⟨k', v'⟩ := hd
    by_cases hk : k' = k
    · subst hk
      by_cases hq : k' = q <;> simp [aset, alookup, hq]
    · by_cases hq : k' = q
      · subst hq
        have : ¬k = k' := fun h => hk h.symm
        simp [aset, alookup, hk, this]
      · simp [aset, alookup, hk, hq, ih]

/-- Appending under a key grows exactly that key's list. -/
theorem alookup_aappend_self {α : Type} (m : List (String × List α)) (k : String)
    (v : α) : alookup (aappend m k v) k = some (((alookup m k).getD []) ++ [v]) := by
  unfold aappend
  rw [alookup_aset, if_pos rfl]

/-- Appending under a key leaves every other key's list untouched. -/
theorem alookup_aappend_ne {α : Type} (m : List (String × List α)) (k : String)
    (v : α) (q : String) (h : k ≠ q) : alookup (aappend m k v) q = alookup m q := by
  unfold aappend
  rw [alookup_aset, if_neg h]

/-- Membership in a key's list survives any append. -/
theorem mem_getD_aappend {α : Type} (m : List (String × List α)) (k : String)
    (v : α) (q : String) (x : α) (h : x ∈ (alookup m q).getD []) :
    x ∈ (alookup (aappend m k v) q).getD [] := by
  by_cases hk : k = q
  · subst hk
    rw [alookup_aappend_self]
    simp only [Option.getD_some]
    exact List.mem_append_left _ h
  · rw [alookup_aappend_ne m k v q hk]
    exact h

/-- The appended element is a member of its key's list. -/
theorem mem_aappend_self {α : Type} (m : List (String × List α)) (k : String)
    (v : α) : v ∈ (alookup (aappend m k v) k).getD [] := by
  rw [alookup_aappend_self]
  simp

/-! ### Aspect-map membership through the builder (claim C8) -/

/-- `p.id` is recorded under LogicalId `lid` in the accumulated indexes. -/
def memAspect (idx : Indexes) (lid : String) (pid : String) : Prop :=
  pid ∈ (alookup idx.aspectsByObjectLogicalId lid).getD []

/-- Processing a further pair never removes a recorded aspect id. -/
theorem memAspect_processPair (idx : Indexes) (p : AspectPair) (lid pid : String)
    (h : memAspect idx lid pid) : memAspect (processPair idx p) lid pid := by
  unfold memAspect processPair
  by_cases hc : logicalId p.dst = logicalId p.src <;>
    simp only [hc, if_true, if_false, reduceIte] <;>
    first
      | exact mem_getD_aappend _ _ _ _ _ (mem_getD_aappend _ _ _ _ _ h)
      | exact mem_getD_aappend _ _ _ _ _ h

/-- Processing a pair records its id under both endpoint LogicalIds. -/
theorem memAspect_processPair_self (idx : Indexes) (p : AspectPair) :
    memAspect (processPair idx p) (logicalId p.src) p.id ∧
    memAspect (processPair idx p) (logicalId p.dst) p.id := by
  unfold memAspect processPair
  by_cases hc : logicalId p.dst = logicalId p.src
  · simp only [hc, if_true, reduceIte]
    exact ⟨mem_aappend_self _ _ _, mem_aappend_self _ _ _⟩
  · simp only [hc, if_false, reduceIte]
    constructor
    · exact mem_getD_aappend _ _ _ _ _ (mem_aappend_self _ _ _)
    · exact mem_aappend_self _ _ _

/-- A fold over further pairs never removes a recorded aspect id. -/
theorem memAspect_foldl_pairs (pairs : List AspectPair) (acc : Indexes)
    (lid pid : String) (h : memAspect acc lid pid) :
    memAspect (pairs.foldl processPair acc) lid pid := by
  induction pairs generalizing acc with
  | nil => exact h
  | cons q rest ih => exact ih _ (memAspect_processPair _ _ _ _ h)

/-- Folding a pair list records every pair under both its endpoints. -/
theorem memAspect_foldl_pairs_self (pairs : List AspectPair) (acc : Indexes)
    (p : AspectPair) (hp : p ∈ pairs) :
    memAspect (pairs.foldl processPair acc) (logicalId p.src) p.id ∧
    memAspect (pairs.foldl processPair acc) (logicalId p.dst) p.id := by
  induction pairs generalizing acc with
  | nil => cases hp
  | cons q rest ih =>
    simp only [List.foldl_cons]
    rcases List.mem_cons.mp hp with hq | hrest
    · subst hq
      obtain ⟨h1, h2⟩ := memAspect_processPair_self acc p
      exact ⟨memAspect_foldl_pairs rest (processPair acc p) _ _ h1,
        memAspect_foldl_pairs rest (processPair acc p) _ _ h2⟩
    · exact ih (processPair acc q) hrest

/-- Processing a further set never removes a recorded aspect id. -/
theorem memAspect_processSet (idx : Indexes) (s : AspectSet) (lid pid : String)
    (h : memAspect idx lid pid) : memAspect (processSet idx s) lid pid := by
  unfold processSet
  exact memAspect_foldl_pairs _ _ _ _ h

/-- A fold over further sets never removes a recorded aspect id. -/
theorem memAspect_foldl_sets (sets : List AspectSet) (acc : Indexes)
    (lid pid : String) (h : memAspect acc lid pid) :
    memAspect (sets.foldl processSet acc) lid pid := by
  induction sets generalizing acc with
  | nil => exact h
  | cons s rest ih => exact ih _ (memAspect_processSet _ _ _ _ h)

/-- Folding the set list records every pair of every set under both its
endpoints. -/
theorem memAspect_foldl_sets_self (sets : List AspectSet) (acc : Indexes)
    (s : AspectSet) (p : AspectPair) (hs : s ∈ sets) (hp : p ∈ s.pairs) :
    memAspect (sets.foldl processSet acc) (logicalId p.src) p.id ∧
    memAspect (sets.foldl processSet acc) (logicalId p.dst) p.id := by
  induction sets generalizing acc with
  | nil => cases hs
  | cons s0 rest ih =>
    simp only [List.foldl_cons]
    rcases List.mem_cons.mp hs with hq | hrest
    · subst hq
      have hins := memAspect_foldl_pairs_self s.pairs
        { acc with aspectSetById := aset acc.aspectSetById s.id s } p hp
      obtain ⟨h1, h2⟩ := hins
      exact ⟨memAspect_foldl_sets rest (processSet acc s) _ _ h1,
        memAspect_foldl_sets rest (processSet acc s) _ _ h2⟩
    · exact ih (processSet acc s0) hrest

/-! ### Item-map shape through the builder (claims C3, C4) -/

/-- Aspect processing never touches `itemByRingAndId`. -/
theorem processPair_itemByRing (idx : Indexes) (p : AspectPair) :
    (processPair idx p).itemByRingAndId = idx.itemByRingAndId := by
  unfold processPair
  by_cases hc : logicalId p.dst = logicalId p.src <;> simp [hc]

/-- A pair fold never touches `itemByRingAndId`. -/
theorem foldl_pairs_itemByRing (pairs : List AspectPair) (acc : Indexes) :
    (pairs.foldl processPair acc).itemByRingAndId = acc.itemByRingAndId := by
  induction pairs generalizing acc with
  | nil => rfl
  | cons q rest ih =>
    simp only [List.foldl_cons]
    rw [ih (processPair acc q), processPair_itemByRing]

/-- Set processing never touches `itemByRingAndId`. -/
theorem processSet_itemByRing (idx : Indexes) (s : AspectSet) :
    (processSet idx s).itemByRingAndId = idx.itemByRingAndId := by
  unfold processSet
  rw [foldl_pairs_itemByRing]

/-- A set fold never touches `itemByRingAndId`. -/
theorem foldl_sets_itemByRing (sets : List AspectSet) (acc : Indexes) :
    (sets.foldl processSet acc).itemByRingAndId = acc.itemByRingAndId := by
  induction sets generalizing acc with
  | nil => rfl
  | cons s rest ih =>
    simp only [List.foldl_cons]
    rw [ih (processSet acc s), processSet_itemByRing]

/-- Registering an item only writes the entry of its own ring id. -/
theorem processItem_itemByRing_ne (idx : Indexes) (rid : String) (it : RingItem)
    (q : String) (h : rid ≠ q) :
    alookup (processItem idx rid it).itemByRingAndId q =
      alookup idx.itemByRingAndId q := by
  unfold processItem
  cases itemLogicalId it <;> simp [alookup_aset, h]

/-- An item fold only writes the entry of its own ring id. -/
theorem foldl_items_itemByRing_ne (items : List RingItem) (acc : Indexes)
    (rid : String) (q : String) (h : rid ≠ q) :
    alookup ((items.foldl (fun a it => processItem a rid it) acc)).itemByRingAndId q =
      alookup acc.itemByRingAndId q := by
  induction items generalizing acc with
  | nil => rfl
  | cons it rest ih =>
    simp only [List.foldl_cons]
    rw [ih (processItem acc rid it), processItem_itemByRing_ne _ _ _ _ h]

/-- Processing a ring only writes the `itemByRingAndId` entry of its own id. -/
theorem processRing_itemByRing_ne (idx : Indexes) (ring : Ring) (q : String)
    (h : ring.id ≠ q) :
    alookup (processRing idx ring).itemByRingAndId q =
      alookup idx.itemByRingAndId q := by
  unfold processRing
  cases hit : ring.items with
  | none => rfl
  | some items =>
    simp only
    rw [foldl_items_itemByRing_ne _ _ _ _ h]
    simp [alookup_aset, h]

/-- A ring whose `items` field is absent leaves `itemByRingAndId` untouched. -/
theorem processRing_itemByRing_none (idx : Indexes) (ring : Ring)
    (h : ring.items = none) :
    (processRing idx ring).itemByRingAndId = idx.itemByRingAndId := by
  unfold processRing
  rw [h]

/-- A ring with an explicitly empty item list writes the empty map under
its id. -/
theorem processRing_itemByRing_empty (idx : Indexes) (ring : Ring)
    (h : ring.items = some []) :
    alookup (processRing idx ring).itemByRingAndId ring.id = some [] := by
  unfold processRing
  rw [h]
  simp [alookup_aset]

/-- Main invariant of the ring fold for claim C4: under pairwise-distinct
ring ids, a ring with absent items ends with no `itemByRingAndId` entry,
and one with an explicitly empty list ends with the empty map. -/
theorem rings_fold_item_map (rings : List Ring) (acc : Indexes) (ring : Ring)
    (hmem : ring ∈ rings) (hnd : (rings.map Ring.id).Nodup)
    (hacc : alookup acc.itemByRingAndId ring.id = none) :
    (ring.items = none →
      alookup ((rings.foldl processRing acc)).itemByRingAndId ring.id = none) ∧
    (ring.items = some [] →
      alookup ((rings.foldl processRing acc)).itemByRingAndId ring.id = some []) := by
  induction rings generalizing acc with
  | nil => cases hmem
  | cons r0 rest ih =>
    simp only [List.foldl_cons]
    rw [List.map_cons, List.nodup_cons] at hnd
    obtain ⟨hnotin, hndrest⟩ := hnd
    have hrest_ne : ∀ r' ∈ rest, r'.id ≠ r0.id := by
      intro r' hr' he
      exact hnotin (he ▸ List.mem_map_of_mem Ring.id hr')
    have fold_pres : ∀ (a : Indexes) (q : String), (∀ r' ∈ rest, r'.id ≠ q) →
        alookup ((rest.foldl processRing a)).itemByRingAndId q =
          alookup a.itemByRingAndId q := by
      intro a q hq
      clear ih hacc hrest_ne hnotin hndrest hmem
      induction rest generalizing a with
      | nil => rfl
      | cons r1 rest1 ih1 =>
        simp only [List.foldl_cons]
        rw [ih1 (processRing a r1) (fun r' hr' => hq r' (List.mem_cons_of_mem _ hr')),
          processRing_itemByRing_ne _ _ _ (hq r1 (List.mem_cons_self _ _))]
    rcases List.mem_cons.mp hmem with hq | hrest
    · subst hq
      have hpres := fold_pres (processRing acc ring) ring.id
        (fun r' hr' => hrest_ne r' hr')
      constructor
      · intro hnone
        rw [hpres, processRing_itemByRing_none _ _ hnone]
        exact hacc
      · intro hempty
        rw [hpres]
        exact processRing_itemByRing_empty _ _ hempty
    · have hne : r0.id ≠ ring.id := by
        intro he
        exact hnotin (he ▸ List.mem_map_of_mem Ring.id hrest)
      have hacc' : alookup (processRing acc r0).itemByRingAndId ring.id = none := by
        rw [processRing_itemByRing_ne _ _ _ hne]
        exact hacc
      exact ih (processRing acc r0) hrest hndrest hacc'

/-- Claim C3: when the snapshot's `wheel.rings` is null (not a valid ordered
sequence), `buildIndexes` raises a structural-validation error to its
caller instead of returning an empty or partial Indexes value
(spec-modelled: the builder's source is absent from the repository). -/
theorem claim_C3_null_rings (r : RenderResponse) (h : r.wheel.rings = none) :
    ∃ e, buildIndexes r = Except.error e := by
  refine ⟨"wheel.rings is not a valid ordered sequence", ?_⟩
  unfold buildIndexes
  rw [h]

/-- A wheel carrying a null rings value. -/
def nullRingsWheel : Wheel :=
  { id := "wheel-1", name := "Test Wheel", radius := ⟨0, 100⟩, rings := none }

/-- A snapshot whose wheel carries a null rings value. -/
def nullRingsSnapshot : RenderResponse :=
  { wheel := nullRingsWheel, aspectSets := [] }

/-- Witness for claim C3 on the concrete null-rings snapshot. -/
theorem claim_C3_witness :
    nullRingsSnapshot.wheel.rings = none ∧
    ∃ e, buildIndexes nullRingsSnapshot = Except.error e :=
  ⟨rfl, claim_C3_null_rings nullRingsSnapshot rfl⟩

/-- Claim C4: for every ring of the wheel (ring ids being unique within a
wheel), if its `items` were never supplied the built Indexes carry no
`itemByRingAndId` entry for its id, while an explicitly empty item list
yields an entry holding the empty map (spec-modelled: the builder's source
is absent from the repository). -/
theorem claim_C4_missing_vs_empty (r : RenderResponse) (rings : List Ring)
    (ring : Ring) (idx : Indexes) (hr : r.wheel.rings = some rings)
    (hnd : (rings.map Ring.id).Nodup) (hmem : ring ∈ rings)
    (hok : buildIndexes r = Except.ok idx) :
    (ring.items = none → alookup idx.itemByRingAndId ring.id = none) ∧
    (ring.items = some [] → alookup idx.itemByRingAndId ring.id = some []) := by
  unfold buildIndexes at hok
  rw [hr] at hok
  simp only [Except.ok.injEq] at hok
  subst hok
  rw [foldl_sets_itemByRing]
  exact rings_fold_item_map rings emptyIndexes ring hmem hnd rfl

/-- Ring whose items were never supplied. -/
def ringNoItems : Ring :=
  { id := "empty-ring", type := "planets", label := some "Empty Planets",
    order := 0, radius := ⟨0, 100⟩, items := none }

/-- Ring with an explicitly empty item list. -/
def ringEmptyItems : Ring :=
  { id := "empty-ring2", type := "planets", label := some "Empty Planets 2",
    order := 1, radius := ⟨0, 100⟩, items := some [] }

/-- Wheel holding the two rings above. -/
def twoRingsWheel : Wheel :=
  { id := "wheel-1", name := "Test Wheel", radius := ⟨0, 100⟩,
    rings := some [ringNoItems, ringEmptyItems] }

/-- Snapshot holding the two rings above. -/
def twoRingsSnapshot : RenderResponse :=
  { wheel := twoRingsWheel, aspectSets := [] }

/-- The Indexes built from `twoRingsSnapshot`. -/
def twoRingsIndexes : Indexes :=
  match buildIndexes twoRingsSnapshot with
  | .ok i => i
  | .error _ => emptyIndexes

/-- Witness for claim C4 on the concrete two-ring snapshot: the
never-supplied ring has no entry, the explicitly empty ring has the empty
map. -/
theorem claim_C4_witness :
    alookup twoRingsIndexes.itemByRingAndId "empty-ring" = none ∧
    alookup twoRingsIndexes.itemByRingAndId "empty-ring2" = some [] :=
  ⟨(claim_C4_missing_vs_empty twoRingsSnapshot [ringNoItems, ringEmptyItems]
      ringNoItems twoRingsIndexes rfl (by decide) (List.mem_cons_self _ _) rfl).1 rfl,
    (claim_C4_missing_vs_empty twoRingsSnapshot [ringNoItems, ringEmptyItems]
      ringEmptyItems twoRingsIndexes rfl (by decide)
      (List.mem_cons_of_mem _ (List.mem_cons_self _ _)) rfl).2 rfl⟩

/-- Claim C8: every aspect pair of every aspect set of the snapshot has its
id recorded in `aspectsByObjectLogicalId` under the LogicalIds
(`layerId:objectType:objectId`) of both its endpoints (spec-modelled: the
builder's source is absent from the repository). -/
theorem claim_C8_aspect_endpoints (r : RenderResponse) (idx : Indexes)
    (s : AspectSet) (p : AspectPair) (hok : buildIndexes r = Except.ok idx)
    (hs : s ∈ r.aspectSets) (hp : p ∈ s.pairs) :
    p.id ∈ (alookup idx.aspectsByObjectLogicalId (logicalId p.src)).getD [] ∧
    p.id ∈ (alookup idx.aspectsByObjectLogicalId (logicalId p.dst)).getD [] := by
  unfold buildIndexes at hok
  cases hr : r.wheel.rings with
  | none => rw [hr] at hok; cases hok
  | some rings =>
    rw [hr] at hok
    simp only [Except.ok.injEq] at hok
    subst hok
    exact memAspect_foldl_sets_self r.aspectSets _ s p hs hp

/-- The sun endpoint of the fixture aspect. -/
def sunRef : ObjectRef :=
  { layerId := "natal", objectType := "planet", objectId := "sun" }

/-- The moon endpoint of the fixture aspect. -/
def moonRef : ObjectRef :=
  { layerId := "natal", objectType := "planet", objectId := "moon" }

/-- The trine descriptor of the fixture aspect. -/
def trineInfo : AspectInfo :=
  { type := "trine", exactAngle := 120, orb := 1/4, isApplying := false, isExact := false }

/-- The sun-trine-moon aspect pair of the test fixture. -/
def sunMoonTrine : AspectPair :=
  { id := "aspect-1", src := sunRef, dst := moonRef, aspect := trineInfo }

/-- The natal aspect set holding `sunMoonTrine`. -/
def natalAspectSet : AspectSet :=
  { id := "natal-aspects", label := some "Natal Aspects", kind := "intra_layer",
    layerIds := ["natal"], pairs := [sunMoonTrine] }

/-- Wheel with an empty ring list. -/
def emptyRingsWheel : Wheel :=
  { id := "wheel-1", name := "Test Wheel", radius := ⟨0, 100⟩, rings := some [] }

/-- Snapshot with an empty ring list and the natal aspect set. -/
def aspectsSnapshot : RenderResponse :=
  { wheel := emptyRingsWheel, aspectSets := [natalAspectSet] }

/-- The Indexes built from `aspectsSnapshot`. -/
def aspectsIndexes : Indexes :=
  match buildIndexes aspectsSnapshot with
  | .ok i => i
  | .error _ => emptyIndexes

/-- Witness for claim C8 on the concrete snapshot: "aspect-1" is recorded
under both "natal:planet:sun" and "natal:planet:moon". -/
theorem claim_C8_witness :
    "aspect-1" ∈ (alookup aspectsIndexes.aspectsByObjectLogicalId
        (logicalId sunMoonTrine.src)).getD [] ∧
    "aspect-1" ∈ (alookup aspectsIndexes.aspectsByObjectLogicalId
        (logicalId sunMoonTrine.dst)).getD [] :=
  claim_C8_aspect_endpoints aspectsSnapshot aspectsIndexes natalAspectSet
    sunMoonTrine rfl (List.mem_cons_self _ _) (List.mem_cons_self _ _)

end AphroditeSpec
